import Mathlib

/-!
Verification of the phoenixd-dashboard desktop supervisor core
(`src/desktop/src-tauri/src/process_manager.rs`, `docker_manager.rs`,
`main.rs`) against its natural-language specification.

The embedding is shallow: filesystem paths are lists of components, the
filesystem is the finite set of existing files, external effects (process
spawns, directory creation, CLI exit statuses, file contents) are supplied
by explicit "world" records, and the Rust `&mut self` methods become
state-passing functions returning the updated state together with an
`Except String` outcome.
-/

/-- A filesystem path, as its list of components (Rust `PathBuf`). -/
abbrev FsPath := List String

/-- `PathBuf::join` with a single relative component. -/
def pjoin (p : FsPath) (s : String) : FsPath := p ++ [s]

/-- `PathBuf::parent`: drop the last component; `none` when there is none. -/
def parentDir (p : FsPath) : Option FsPath :=
  match p with
  | [] => none
  | _ :: _ => some p.dropLast

/-- The filesystem, abstracted as the finite set of files that exist. -/
structure FS where
  files : List FsPath
deriving DecidableEq

/-- `Path::exists` for files, over the abstract filesystem. -/
def FS.existsFile (fs : FS) (p : FsPath) : Bool := fs.files.contains p

/-- The `phoenixd` binary candidate without the Windows suffix
(`dir/binaries/phoenixd`), from `has_all_resources`. -/
def phoenixdPlainPath (dir : FsPath) : FsPath := pjoin (pjoin dir ("binaries")) ("phoenixd")

/-- The `phoenixd` binary candidate with the Windows suffix
(`dir/binaries/phoenixd.exe`), from `has_all_resources`. -/
def phoenixdExePath (dir : FsPath) : FsPath := pjoin (pjoin dir ("binaries")) ("phoenixd.exe")

/-- The backend entry file `dir/backend/dist/index.js`. -/
def backendEntryPath (dir : FsPath) : FsPath :=
  pjoin (pjoin (pjoin dir ("backend")) ("dist")) ("index.js")

/-- The frontend entry file `dir/frontend/server.js`. -/
def frontendEntryPath (dir : FsPath) : FsPath := pjoin (pjoin dir ("frontend")) ("server.js")

/-- `has_all_resources` (process_manager.rs, lines 29-39): a candidate
directory is complete when a node-daemon binary (either name), the backend
entry file and the frontend entry file all exist. -/
def has_all_resources (fs : FS) (dir : FsPath) : Bool :=
  let has_phoenixd := fs.existsFile (phoenixdPlainPath dir) || fs.existsFile (phoenixdExePath dir)
  let has_backend := fs.existsFile (backendEntryPath dir)
  let has_frontend := fs.existsFile (frontendEntryPath dir)
  has_phoenixd && has_backend && has_frontend

/-- The second candidate `default_dir/_up_/resources` (process_manager.rs,
line 48). -/
def upResourcesDir (d : FsPath) : FsPath := pjoin (pjoin d ("_up_")) ("resources")

/-- The development candidate: three `parent` steps from `default_dir`,
then `join("resources")` (process_manager.rs, lines 56-60). -/
def devResourcesDir (d : FsPath) : Option FsPath :=
  ((((parentDir d).bind parentDir).bind parentDir).map (fun p => pjoin p ("resources")))

/-- `find_resource_dir` (process_manager.rs, lines 27-72): try the default
directory, then `_up_/resources`, then the development candidate; fall back
to the default directory. -/
def find_resource_dir (fs : FS) (default_dir : FsPath) : FsPath :=
  if has_all_resources fs default_dir then default_dir
  else if has_all_resources fs (upResourcesDir default_dir) then upResourcesDir default_dir
  else
    match devResourcesDir default_dir with
    | some dev_path => if has_all_resources fs dev_path then dev_path else default_dir
    | none => default_dir

/-- The candidate directories of `find_resource_dir`, in the priority order
in which the code tests them. -/
def resourceCandidates (d : FsPath) : List FsPath :=
  [d, upResourcesDir d] ++ (devResourcesDir d).toList

/-! ### Text utilities for the credential reader -/

/-- Split a character sequence at every newline character (the separators
of Rust `str::lines`). -/
def splitNl : List Char → List (List Char)
  | [] => [[]]
  | c :: rest =>
    if c = '\n' then [] :: splitNl rest
    else
      match splitNl rest with
      | [] => [[c]]
      | l :: ls => (c :: l) :: ls

/-- Drop one trailing carriage return, as Rust `str::lines` does for
`\r\n` line endings. -/
def stripCr (l : List Char) : List Char :=
  if l.getLast? = some '\r' then l.dropLast else l

/-- Rust `str::lines`: split at `\n`, treat a final line ending as not
introducing an extra empty line, and strip a trailing `\r` per line. -/
def rustLines (s : List Char) : List (List Char) :=
  let parts := splitNl s
  let parts2 := if parts.getLast? = some [] then parts.dropLast else parts
  parts2.map stripCr

/-- One step bound by fuel of Rust `str::replace(pat, "")`: remove the
left-most non-overlapping occurrences of `pat`. Fuel decreases at every
step and at least one character is consumed, so `s.length` fuel is enough. -/
def removeAllAux (pat : List Char) : Nat → List Char → List Char
  | 0, s => s
  | _ + 1, [] => []
  | fuel + 1, c :: rest =>
    if pat.isPrefixOf (c :: rest) then removeAllAux pat fuel (rest.drop (pat.length - 1))
    else c :: removeAllAux pat fuel rest

/-- Rust `str::replace(pat, "")` specialised to an empty replacement:
remove every (left-most, non-overlapping) occurrence of `pat`. -/
def removeAll (pat s : List Char) : List Char := removeAllAux pat s.length s

/-- Rust `str::trim`: drop whitespace from both ends. -/
def trimChars (s : List Char) : List Char :=
  ((s.dropWhile Char.isWhitespace).reverse.dropWhile Char.isWhitespace).reverse

/-- The fixed key of the credential line, `http-password=`. -/
def pwKey : List Char := ("http-password=").toList

/-- The line scan of `read_phoenixd_password` (process_manager.rs, lines
272-276): the first line starting with the key is transformed by
`replace(key, "")` then `trim` and returned; otherwise the result is empty. -/
def scanPassword : List (List Char) → List Char
  | [] => []
  | l :: ls =>
    if pwKey.isPrefixOf l then trimChars (removeAll pwKey l) else scanPassword ls

/-- `read_phoenixd_password` (process_manager.rs, lines 265-281). The
argument is `none` when the file does not exist or `read_to_string` fails,
and `some content` when the file was read. -/
def read_phoenixd_password (content : Option (List Char)) : List Char :=
  match content with
  | none => []
  | some c => scanPassword (rustLines c)

/-- The credential reader as the specification words it: the prefix of the
first matching line is stripped (rather than every occurrence of the key
being removed) and the remainder trimmed. Stated for comparison with
`read_phoenixd_password`. -/
def read_password_claimed (content : Option (List Char)) : List Char :=
  match content with
  | none => []
  | some c =>
    match (rustLines c).find? (fun l => pwKey.isPrefixOf l) with
    | some l => trimChars (l.drop pwKey.length)
    | none => []

/-- The completeness predicate as the specification words it: the
node-daemon binary must carry the `.exe` suffix on Windows and must not
elsewhere. Stated for comparison with `has_all_resources`. -/
def has_all_resources_claimed (isWindows : Bool) (fs : FS) (dir : FsPath) : Bool :=
  let has_phoenixd :=
    if isWindows then fs.existsFile (phoenixdExePath dir)
    else fs.existsFile (phoenixdPlainPath dir)
  has_phoenixd && fs.existsFile (backendEntryPath dir) && fs.existsFile (frontendEntryPath dir)

/-- The paths whose existence `has_all_resources` consults for a candidate
directory. -/
def relevantResourcePaths (dir : FsPath) : List FsPath :=
  [phoenixdPlainPath dir, phoenixdExePath dir, backendEntryPath dir, frontendEntryPath dir]

/-! ### Native process supervisor (`ProcessManager`) -/

/-- The mutable state of `ProcessManager` (process_manager.rs, lines 5-11):
the resolved resource directory, the data directory, and one optional child
handle per service (modelled by its pid). -/
structure ProcessManager where
  resource_dir : FsPath
  data_dir : FsPath
  phoenixd : Option Nat
  backend : Option Nat
  frontend : Option Nat
deriving DecidableEq

/-- The external effects a `ProcessManager` run can observe: the
filesystem, the platform flag, the results of the two `which` lookups, of
`create_dir_all`, and of the three `Command::spawn` calls (`none` models an
OS spawn error). Environment variables, piped stdio and the best-effort
template-database copy influence no supervisor state and are not modelled. -/
structure PWorld where
  fs : FS
  isWindows : Bool
  whichPhoenixd : Option FsPath
  whichNode : Option FsPath
  createDirOk : Bool
  spawnPhoenixd : Option Nat
  spawnBackend : Option Nat
  spawnFrontend : Option Nat
deriving DecidableEq

/-- `ProcessManager::new` (process_manager.rs, lines 14-25): resolve the
resource directory, start with empty handle slots. -/
def ProcessManager.new (fs : FS) (resource_dir data_dir : FsPath) : ProcessManager :=
  { resource_dir := find_resource_dir fs resource_dir
    data_dir := data_dir
    phoenixd := none
    backend := none
    frontend := none }

/-- `get_phoenixd_binary_path` (process_manager.rs, lines 226-246):
platform-suffixed bundled path if it exists, else the `which` lookup, else
the (possibly nonexistent) bundled path. -/
def get_phoenixd_binary_path (w : PWorld) (pm : ProcessManager) : FsPath :=
  let binary_name := if w.isWindows then "phoenixd.exe" else "phoenixd"
  let bundled := pjoin (pjoin pm.resource_dir ("binaries")) binary_name
  if w.fs.existsFile bundled then bundled
  else
    match w.whichPhoenixd with
    | some p => p
    | none => bundled

/-- `find_node_binary` (process_manager.rs, lines 248-263): bundled runtime
under the resolved layout first, else the system `which` lookup, else a
descriptive error. -/
def find_node_binary (w : PWorld) (pm : ProcessManager) : Except String FsPath :=
  let bundled_node :=
    if w.isWindows then pjoin (pjoin pm.resource_dir ("node")) ("node.exe")
    else pjoin (pjoin (pjoin pm.resource_dir ("node")) ("bin")) ("node")
  if w.fs.existsFile bundled_node then Except.ok bundled_node
  else
    match w.whichNode with
    | some p => Except.ok p
    | none => Except.error ("Node.js not found. Please install Node.js or include it in the app bundle.")

/-- `start_phoenixd` (process_manager.rs, lines 96-128): check the binary
exists, create the data directory, spawn; on success fill the `phoenixd`
slot, on any failure return the error with the state unchanged. -/
def start_phoenixd (w : PWorld) (pm : ProcessManager) : ProcessManager × Except String Unit :=
  let bin := get_phoenixd_binary_path w pm
  if !(w.fs.existsFile bin) then (pm, Except.error ("Phoenixd binary not found"))
  else if !w.createDirOk then (pm, Except.error ("Failed to create phoenixd home dir"))
  else
    match w.spawnPhoenixd with
    | none => (pm, Except.error ("Failed to start phoenixd"))
    | some pid => ({ pm with phoenixd := some pid }, Except.ok ())

/-- `start_backend` (process_manager.rs, lines 130-190): locate the node
runtime (first, as in the code), check the backend entry file, spawn; on
success fill the `backend` slot. The credential read and the template
database copy are best-effort and affect no state. -/
def start_backend (w : PWorld) (pm : ProcessManager) : ProcessManager × Except String Unit :=
  match find_node_binary w pm with
  | Except.error e => (pm, Except.error e)
  | Except.ok _ =>
    let backend_entry := backendEntryPath pm.resource_dir
    if !(w.fs.existsFile backend_entry) then (pm, Except.error ("Backend entry point not found"))
    else
      match w.spawnBackend with
      | none => (pm, Except.error ("Failed to start backend"))
      | some pid => ({ pm with backend := some pid }, Except.ok ())

/-- `start_frontend` (process_manager.rs, lines 192-224): locate the node
runtime, check the standalone `server.js`, spawn; on success fill the
`frontend` slot. -/
def start_frontend (w : PWorld) (pm : ProcessManager) : ProcessManager × Except String Unit :=
  match find_node_binary w pm with
  | Except.error e => (pm, Except.error e)
  | Except.ok _ =>
    let server_js := frontendEntryPath pm.resource_dir
    if !(w.fs.existsFile server_js) then (pm, Except.error ("Frontend server not found"))
    else
      match w.spawnFrontend with
      | none => (pm, Except.error ("Failed to start frontend"))
      | some pid => ({ pm with frontend := some pid }, Except.ok ())

/-- `start_all` (process_manager.rs, lines 74-94): phoenixd, then backend,
then frontend; the `?` operator propagates the first error, keeping the
state mutations of the earlier stages. The fixed settle sleeps have no
state effect. -/
def start_all (w : PWorld) (pm : ProcessManager) : ProcessManager × Except String Unit :=
  match start_phoenixd w pm with
  | (pm1, Except.error e) => (pm1, Except.error e)
  | (pm1, Except.ok _) =>
    match start_backend w pm1 with
    | (pm2, Except.error e) => (pm2, Except.error e)
    | (pm2, Except.ok _) => start_frontend w pm2

/-- The service tags of the supervisor, for the termination trace. -/
inductive Svc where
  | phoenixdSvc
  | backendSvc
  | frontendSvc
deriving DecidableEq

/-- One observable termination action: `child.kill()` followed by
`child.wait()` on the handle with the given pid. -/
inductive Ev where
  | killWait : Svc → Nat → Ev
deriving DecidableEq

/-- The kill-and-reap actions `stop_all` emits for one optional handle. -/
def stopEvents (s : Svc) (h : Option Nat) : List Ev :=
  match h with
  | some pid => [Ev.killWait s pid]
  | none => []

/-- `stop_all` (process_manager.rs, lines 283-306): kill and wait frontend,
then backend, then phoenixd, each only when a handle is present (`take`
clears every slot); total, returns no error. The returned trace records the
terminations performed, in order. -/
def stop_all (pm : ProcessManager) : ProcessManager × List Ev :=
  ({ pm with frontend := none, backend := none, phoenixd := none },
    stopEvents Svc.frontendSvc pm.frontend ++ stopEvents Svc.backendSvc pm.backend ++
      stopEvents Svc.phoenixdSvc pm.phoenixd)

/-! ### Container supervisor (`DockerManager`) -/

/-- The outcome of running an external CLI command: the OS failed to run it
at all (`ioError`), or it ran and exited with the given success flag. -/
inductive CmdResult where
  | ioError
  | exited : Bool → CmdResult
deriving DecidableEq

/-- `DockerManager` (docker_manager.rs, lines 4-6): only the project
directory. -/
structure DockerManager where
  project_dir : FsPath
deriving DecidableEq

/-- The external effects the container supervisor can observe: the
filesystem and the results of the `docker` CLI invocations
(`docker info`, `compose pull`, `compose up -d`, `compose down`). -/
structure DWorld where
  fs : FS
  dockerAvailable : Bool
  dockerInstalled : Bool
  pullCmd : CmdResult
  upCmd : CmdResult
  downCmd : CmdResult
deriving DecidableEq

/-- The bundled compose-file candidate
`project_dir/_up_/resources/docker-compose.yml` (docker_manager.rs, line 38). -/
def bundledComposePath (dm : DockerManager) : FsPath :=
  pjoin (pjoin (pjoin dm.project_dir ("_up_")) ("resources")) ("docker-compose.yml")

/-- The direct compose-file candidate `project_dir/docker-compose.yml`
(docker_manager.rs, line 44). -/
def directComposePath (dm : DockerManager) : FsPath :=
  pjoin dm.project_dir ("docker-compose.yml")

/-- `find_compose_file` (docker_manager.rs, lines 36-51): bundled path if
it exists, else the direct path if it exists, else default to the bundled
(possibly nonexistent) path. -/
def find_compose_file (w : DWorld) (dm : DockerManager) : FsPath :=
  let bundled := bundledComposePath dm
  if w.fs.existsFile bundled then bundled
  else
    let direct := directComposePath dm
    if w.fs.existsFile direct then direct
    else bundled

/-- The error message of `start_containers` when the compose file is
missing, naming the path it looked at. -/
def composeNotFoundMsg (p : FsPath) : String :=
  "docker-compose.yml not found at " ++ String.intercalate ("/") p

/-- `start_containers` (docker_manager.rs, lines 133-167): locate the
compose file, fail naming it if absent; pull (an OS-level failure to run
the command is fatal, a nonzero pull exit is only a warning); then
`up -d` (fatal on either failure). -/
def start_containers (w : DWorld) (dm : DockerManager) : Except String Unit :=
  let compose_file := find_compose_file w dm
  if !(w.fs.existsFile compose_file) then Except.error (composeNotFoundMsg compose_file)
  else
    match w.pullCmd with
    | CmdResult.ioError => Except.error ("Failed to pull images")
    | CmdResult.exited _ =>
      match w.upCmd with
      | CmdResult.ioError => Except.error ("Failed to start containers")
      | CmdResult.exited true => Except.ok ()
      | CmdResult.exited false => Except.error ("Failed to start Docker containers")

/-- `stop_containers` (docker_manager.rs, lines 170-191): when the compose
file is absent there is nothing to stop and the result is success;
otherwise `compose down`, fatal on either failure. -/
def stop_containers (w : DWorld) (dm : DockerManager) : Except String Unit :=
  let compose_file := find_compose_file w dm
  if !(w.fs.existsFile compose_file) then Except.ok ()
  else
    match w.downCmd with
    | CmdResult.ioError => Except.error ("Failed to stop containers")
    | CmdResult.exited true => Except.ok ()
    | CmdResult.exited false => Except.error ("Failed to stop Docker containers")

/-! ### Mode selection and application state (`main.rs`) -/

/-- `RunMode` (main.rs, lines 17-21). -/
inductive RunMode where
  | docker
  | local
deriving DecidableEq

/-- The supervision-relevant part of `AppState` (main.rs, lines 23-29):
the chosen mode and the optional native supervisor. The docker manager
itself is stateless (only its project directory) and the two directory
fields never change, so they are passed separately where needed. -/
structure AppState where
  run_mode : RunMode
  process_manager : Option ProcessManager
deriving DecidableEq

/-- The setup closure's mode selection (main.rs, lines 57-105): when the
engine is available try the container supervisor and choose Docker mode on
success; otherwise (engine unavailable, or container start failed)
construct the native supervisor, attempt its `start_all`, and choose Local
mode whatever that attempt returned — the native error is only logged. -/
def setupState (dw : DWorld) (w : PWorld) (resource_dir data_dir : FsPath) : AppState :=
  let dm : DockerManager := { project_dir := resource_dir }
  if dw.dockerAvailable then
    match start_containers dw dm with
    | Except.ok _ => { run_mode := RunMode.docker, process_manager := none }
    | Except.error _ =>
      let pm := ProcessManager.new w.fs resource_dir data_dir
      { run_mode := RunMode.local, process_manager := some (start_all w pm).1 }
  else
    let pm := ProcessManager.new w.fs resource_dir data_dir
    { run_mode := RunMode.local, process_manager := some (start_all w pm).1 }

/-- `restart_all` (main.rs, lines 277-302): in Docker mode the container
CLI is cycled and the application state is untouched; in Local mode, when a
native supervisor is present, it is stopped then restarted in place. -/
def restart_all (w : PWorld) (st : AppState) : AppState :=
  match st.run_mode with
  | RunMode.docker => st
  | RunMode.local =>
    match st.process_manager with
    | none => st
    | some pm => { st with process_manager := some (start_all w (stop_all pm).1).1 }

/-- `shutdown_all` (main.rs, lines 304-322): in Docker mode the containers
are brought down and the application state is untouched; in Local mode,
when a native supervisor is present, it is stopped in place. -/
def shutdown_all (st : AppState) : AppState :=
  match st.run_mode with
  | RunMode.docker => st
  | RunMode.local =>
    match st.process_manager with
    | none => st
    | some pm => { st with process_manager := some (stop_all pm).1 }

/-- The correspondence between the chosen mode and the native-supervisor
slot: Local mode keeps a supervisor, Docker mode keeps none. -/
def modeSlotInv (st : AppState) : Prop :=
  (st.run_mode = RunMode.local → st.process_manager.isSome = true) ∧
    (st.run_mode = RunMode.docker → st.process_manager = none)

instance (st : AppState) : Decidable (modeSlotInv st) := by
  unfold modeSlotInv
  infer_instance

/-! ### Container status parsing

The status query parses each stdout line with `serde_json::from_str`
(an external library). `Json` and `parseJsonLine` model the relevant
fragment of its grammar (objects, arrays, strings with the common escapes,
integers, booleans, null); the loop structure of `get_container_status` is
stated over an arbitrary line parser, so its defensive-skipping behaviour
does not depend on that model. -/

/-- A JSON value (the model of `serde_json::Value`). -/
inductive Json where
  | null
  | jbool : Bool → Json
  | jnum : Int → Json
  | jstr : List Char → Json
  | jarr : List Json → Json
  | jobj : List (List Char × Json) → Json

/-- The whitespace characters of the JSON grammar. -/
def isJsonWs (c : Char) : Bool := c == ' ' || c == '\t' || c == '\n' || c == '\r'

/-- Skip JSON whitespace. -/
def skipWs (s : List Char) : List Char := s.dropWhile isJsonWs

/-- Decode one character escape of a JSON string (the `\\u` form is not
modelled). -/
def escChar (e : Char) : Option Char :=
  if e == '\x22' then some '\x22'
  else if e == '\x5c' then some '\x5c'
  else if e == '/' then some '/'
  else if e == 'n' then some '\n'
  else if e == 't' then some '\t'
  else if e == 'r' then some '\r'
  else if e == 'b' then some '\x08'
  else if e == 'f' then some '\x0c'
  else none

/-- Parse the body of a JSON string after the opening quote, returning the
decoded characters and the rest of the input. -/
def parseStrBody : List Char → Option (List Char × List Char)
  | [] => none
  | '\x22' :: rest => some ([], rest)
  | '\x5c' :: e :: rest =>
    match escChar e with
    | some d => (parseStrBody rest).map (fun p => (d :: p.1, p.2))
    | none => none
  | c :: rest => (parseStrBody rest).map (fun p => (c :: p.1, p.2))

/-- Accumulate decimal digits. -/
def digitsAux : List Char → Nat → Nat × List Char
  | [], acc => (acc, [])
  | c :: rest, acc =>
    if c.isDigit then digitsAux rest (acc * 10 + (c.toNat - 48)) else (acc, c :: rest)

/-- Accept an integer literal only when no fraction or exponent follows
(floats are outside the modelled fragment). -/
def numGuard (n : Int) (rest : List Char) : Option (Json × List Char) :=
  match rest with
  | c :: _ => if c == '.' || c == 'e' || c == 'E' then none else some (Json.jnum n, rest)
  | [] => some (Json.jnum n, [])

mutual

/-- Parse one JSON value (fuel-bounded recursive descent). -/
def parseVal : Nat → List Char → Option (Json × List Char)
  | 0, _ => none
  | fuel + 1, s =>
    match skipWs s with
    | [] => none
    | c :: rest =>
      if c == '\x22' then (parseStrBody rest).map (fun p => (Json.jstr p.1, p.2))
      else if c == '\x7b' then
        match skipWs rest with
        | '\x7d' :: rest2 => some (Json.jobj [], rest2)
        | rest2 => (parseMembers fuel rest2).map (fun p => (Json.jobj p.1, p.2))
      else if c == '[' then
        match skipWs rest with
        | ']' :: rest2 => some (Json.jarr [], rest2)
        | rest2 => (parseElems fuel rest2).map (fun p => (Json.jarr p.1, p.2))
      else if c == 't' then
        if rest.take 3 == ['r', 'u', 'e'] then some (Json.jbool true, rest.drop 3) else none
      else if c == 'f' then
        if rest.take 4 == ['a', 'l', 's', 'e'] then some (Json.jbool false, rest.drop 4)
        else none
      else if c == 'n' then
        if rest.take 3 == ['u', 'l', 'l'] then some (Json.null, rest.drop 3) else none
      else if c == '-' then
        match rest with
        | d :: _ =>
          if d.isDigit then
            let p := digitsAux rest 0
            numGuard (-(p.1 : Int)) p.2
          else none
        | [] => none
      else if c.isDigit then
        let p := digitsAux (c :: rest) 0
        numGuard (p.1 : Int) p.2
      else none

/-- Parse the members of a JSON object after its first non-`}` character. -/
def parseMembers : Nat → List Char → Option (List (List Char × Json) × List Char)
  | 0, _ => none
  | fuel + 1, s =>
    match skipWs s with
    | '\x22' :: rest =>
      match parseStrBody rest with
      | none => none
      | some (key, rest2) =>
        match skipWs rest2 with
        | ':' :: rest3 =>
          match parseVal fuel rest3 with
          | none => none
          | some (v, rest4) =>
            match skipWs rest4 with
            | ',' :: rest5 => (parseMembers fuel rest5).map (fun p => ((key, v) :: p.1, p.2))
            | '\x7d' :: rest5 => some ([(key, v)], rest5)
            | _ => none
        | _ => none
    | _ => none

/-- Parse the elements of a JSON array after its first non-`]` character. -/
def parseElems : Nat → List Char → Option (List Json × List Char)
  | 0, _ => none
  | fuel + 1, s =>
    match parseVal fuel s with
    | none => none
    | some (v, rest) =>
      match skipWs rest with
      | ',' :: rest2 => (parseElems fuel rest2).map (fun p => (v :: p.1, p.2))
      | ']' :: rest2 => some ([v], rest2)
      | _ => none

end

/-- `serde_json::from_str::<Value>` on one line (modelled fragment): parse
one value and require only whitespace to remain. -/
def parseJsonLine (s : List Char) : Option Json :=
  match parseVal (s.length + 1) s with
  | some (j, rest) => if skipWs rest == [] then some j else none
  | none => none

/-- `Value::index` with a string key followed by the serde map semantics
(duplicate keys: the last wins); `Null` for absent keys and non-objects. -/
def jGet (j : Json) (key : List Char) : Json :=
  match j with
  | Json.jobj kvs =>
    match kvs.reverse.find? (fun kv => kv.1 == key) with
    | some kv => kv.2
    | none => Json.null
  | _ => Json.null

/-- `Value::as_str`: the string payload of a string value, `none` otherwise. -/
def jAsStr : Json → Option (List Char)
  | Json.jstr s => some s
  | _ => none

/-- `ContainerStatus` (docker_manager.rs, lines 230-235). -/
structure ContainerStatus where
  name : List Char
  status : List Char
  health : Option (List Char)
deriving DecidableEq

/-- One parsed record of `get_container_status` (docker_manager.rs, lines
207-211): `Name` and `State` default to `unknown`, `Health` stays optional. -/
def mkContainerStatus (j : Json) : ContainerStatus :=
  { name := (jAsStr (jGet j (("Name").toList))).getD (("unknown").toList)
    status := (jAsStr (jGet j (("State").toList))).getD (("unknown").toList)
    health := jAsStr (jGet j (("Health").toList)) }

/-- `get_container_status` (docker_manager.rs, lines 194-218),
parameterised by the line parser: `none` models an `Err` from running the
CLI, `some (ok, stdout)` a completed command with its exit-success flag.
Lines are pushed as they parse; the rest are skipped. -/
def get_container_status (parse : List Char → Option Json)
    (output : Option (Bool × List Char)) : List ContainerStatus :=
  match output with
  | some (true, stdout) =>
    (rustLines stdout).foldl
      (fun acc line =>
        match parse line with
        | some j => acc ++ [mkContainerStatus j]
        | none => acc)
      []
  | _ => []

/-! ### Concrete example data -/

/-- An example resource directory. -/
def rDir : FsPath := [("r")]

/-- An example data directory. -/
def dDir : FsPath := [("d")]

/-- A filesystem with a complete native layout including a bundled node
runtime. -/
def fsFull : FS :=
  { files := [phoenixdPlainPath rDir, backendEntryPath rDir, frontendEntryPath rDir,
      pjoin (pjoin (pjoin rDir ("node")) ("bin")) ("node")] }

/-- A filesystem with the three required resources but no node runtime. -/
def fsNoNode : FS :=
  { files := [phoenixdPlainPath rDir, backendEntryPath rDir, frontendEntryPath rDir] }

/-- A world where every native stage succeeds. -/
def wAllOk : PWorld :=
  { fs := fsFull, isWindows := false, whichPhoenixd := none, whichNode := none,
    createDirOk := true, spawnPhoenixd := some 1, spawnBackend := some 2,
    spawnFrontend := some 3 }

/-- A world where phoenixd starts but the node runtime cannot be located,
so the backend stage fails. -/
def wNoNode : PWorld := { wAllOk with fs := fsNoNode }

/-- A freshly constructed supervisor over `fsFull`. -/
def pmFresh : ProcessManager := ProcessManager.new fsFull rDir dDir

/-- A freshly constructed supervisor over `fsNoNode`. -/
def pmFreshNoNode : ProcessManager := ProcessManager.new fsNoNode rDir dDir

/-- A container world whose filesystem holds no compose file, with the
engine reported available. -/
def dwNoCompose : DWorld :=
  { fs := { files := [] }, dockerAvailable := true, dockerInstalled := false,
    pullCmd := CmdResult.exited true, upCmd := CmdResult.exited true,
    downCmd := CmdResult.exited true }

/-- The first line of the status-parsing example:
`{"Name":"x","State":"running","Health":"healthy"}`. -/
def jsonLine1 : List Char :=
  ("\x7b\x22Name\x22:\x22x\x22,\x22State\x22:\x22running\x22,\x22Health\x22:\x22healthy\x22\x7d").toList

/-- The second line of the status-parsing example:
`{"Name":"y","State":"exited"}`. -/
def jsonLine2 : List Char := ("\x7b\x22Name\x22:\x22y\x22,\x22State\x22:\x22exited\x22\x7d").toList

/-- The two-line status-parsing example input. -/
def twoLineInput : List Char := jsonLine1 ++ '\n' :: jsonLine2

/-- C1: for every base directory, `find_resource_dir` returns the first
candidate, in the fixed priority order (the base directory itself, then
`_up_/resources`, then three parent levels up joined with `resources`),
that has all three required files; if no candidate is complete it returns
the original base directory unchanged, and it is a total function (never
fails). -/
theorem find_resource_dir_first_complete (fs : FS) (d : FsPath) :
    find_resource_dir fs d =
      ((resourceCandidates d).find? (fun p => has_all_resources fs p)).getD d := by
  unfold find_resource_dir resourceCandidates
  cases h1 : has_all_resources fs d with
  | true => simp [List.find?, h1]
  | false =>
    cases h2 : has_all_resources fs (upResourcesDir d) with
    | true => simp [List.find?, h1, h2]
    | false =>
      cases h3 : devResourcesDir d with
      | none => simp [List.find?, h1, h2, h3]
      | some dev_path =>
        cases h4 : has_all_resources fs dev_path with
        | true => simp [List.find?, h1, h2, h3, h4]
        | false => simp [List.find?, h1, h2, h3, h4]

/-- When no line starts with the key, the scan returns the empty string. -/
theorem scanPassword_of_find_none (ls : List (List Char))
    (h : ls.find? (fun l => pwKey.isPrefixOf l) = none) : scanPassword ls = [] := by
  induction ls with
  | nil => rfl
  | cons l ls ih =>
    cases hp : pwKey.isPrefixOf l with
    | true =>
      rw [List.find?_cons_of_pos _ hp] at h
      cases h
    | false =>
      rw [List.find?_cons_of_neg _ (by simp [hp])] at h
      simp only [scanPassword, hp, if_false]
      exact ih h

/-- When some line starts with the key, the scan returns the first such
line with all key occurrences removed and the ends trimmed. -/
theorem scanPassword_of_find_some (ls : List (List Char)) (l : List Char)
    (h : ls.find? (fun t => pwKey.isPrefixOf t) = some l) :
    scanPassword ls = trimChars (removeAll pwKey l) := by
  induction ls with
  | nil => cases h
  | cons m ls ih =>
    cases hp : pwKey.isPrefixOf m with
    | true =>
      rw [List.find?_cons_of_pos _ hp] at h
      cases h
      simp only [scanPassword, hp, if_true]
    | false =>
      rw [List.find?_cons_of_neg _ (by simp [hp])] at h
      simp only [scanPassword, hp, if_false]
      exact ih h

/-- C2 (amended): `read_phoenixd_password` returns the empty string when
the file is missing or unreadable or no line begins with `http-password=`;
otherwise it takes the first line beginning with that key, removes every
occurrence of `http-password=` from it (the code uses `replace`, not a
prefix strip), trims surrounding whitespace and returns the result; in
particular a file containing the line `http-password=abc123` among other
lines yields `abc123`. -/
theorem read_phoenixd_password_replace_semantics :
    (read_phoenixd_password none = []) ∧
    (∀ c, (rustLines c).find? (fun l => pwKey.isPrefixOf l) = none →
      read_phoenixd_password (some c) = []) ∧
    (∀ c l, (rustLines c).find? (fun t => pwKey.isPrefixOf t) = some l →
      read_phoenixd_password (some c) = trimChars (removeAll pwKey l)) ∧
    (read_phoenixd_password (some (("other=1\nhttp-password=abc123\nmore=2").toList)) =
      ("abc123").toList) := by
  refine ⟨rfl, ?_, ?_, by decide⟩
  · intro c h
    exact scanPassword_of_find_none _ h
  · intro c l h
    exact scanPassword_of_find_some _ _ h

/-- Witness for the amended C2 theorem at a concrete config file with a
padded credential line. -/
theorem read_phoenixd_password_replace_semantics_witness :
    read_phoenixd_password (some (("x=1\nhttp-password= secret \ny=2").toList)) =
      trimChars (removeAll pwKey (("http-password= secret ").toList)) :=
  read_phoenixd_password_replace_semantics.2.2.1 _ _ (by decide)

/-- C2 counterexample: on a line whose payload itself contains the key,
the code removes the inner occurrence as well, so the result differs from
stripping the prefix and trimming, as the claim describes. -/
theorem read_phoenixd_password_strip_claim_false :
    read_phoenixd_password (some (("http-password=abchttp-password=123").toList)) =
      ("abc123").toList ∧
    read_password_claimed (some (("http-password=abchttp-password=123").toList)) =
      ("abchttp-password=123").toList ∧
    read_phoenixd_password (some (("http-password=abchttp-password=123").toList)) ≠
      read_password_claimed (some (("http-password=abchttp-password=123").toList)) := by
  refine ⟨by decide, by decide, by decide⟩

/-- C8 counterexample: a layout holding only the `.exe`-suffixed
node-daemon binary (with backend and frontend entries) passes the code's
completeness predicate even off Windows, where the claim requires the
unsuffixed name. -/
theorem has_all_resources_suffix_claim_false :
    has_all_resources
        { files := [phoenixdExePath [("r")], backendEntryPath [("r")], frontendEntryPath [("r")]] }
        [("r")] = true ∧
    has_all_resources_claimed false
        { files := [phoenixdExePath [("r")], backendEntryPath [("r")], frontendEntryPath [("r")]] }
        [("r")] = false := by
  refine ⟨by decide, by decide⟩

/-- C8 (amended): the completeness predicate requires the backend entry
file `backend/dist/index.js`, the frontend entry file
`frontend/server.js`, and a node-daemon binary under `binaries/` named
either `phoenixd` or `phoenixd.exe` — either name is accepted on every
platform; and the predicate consults only those paths, so the compose
file, template database and runtime binary may be absent without affecting
it. -/
theorem has_all_resources_characterisation (fs : FS) (dir : FsPath) :
    (has_all_resources fs dir = true ↔
      ((fs.existsFile (phoenixdPlainPath dir) = true ∨
          fs.existsFile (phoenixdExePath dir) = true) ∧
        fs.existsFile (backendEntryPath dir) = true ∧
        fs.existsFile (frontendEntryPath dir) = true)) ∧
    (∀ fs2 : FS, (∀ p ∈ relevantResourcePaths dir, fs.existsFile p = fs2.existsFile p) →
      has_all_resources fs dir = has_all_resources fs2 dir) := by
  constructor
  · simp [has_all_resources, and_assoc]
  · intro fs2 h
    simp only [relevantResourcePaths, List.mem_cons, List.not_mem_nil, or_false,
      forall_eq_or_imp, forall_eq] at h
    obtain ⟨h1, h2, h3, h4⟩ := h
    simp [has_all_resources, h1, h2, h3, h4]

/-- Witness for the amended C8 theorem: adding a `template.db` to a
complete layout leaves the predicate unchanged. -/
theorem has_all_resources_characterisation_witness :
    has_all_resources fsNoNode rDir =
      has_all_resources
        { files := [phoenixdPlainPath rDir, backendEntryPath rDir, frontendEntryPath rDir,
            pjoin rDir ("template.db")] }
        rDir :=
  (has_all_resources_characterisation fsNoNode rDir).2 _ (by decide)

/-- `start_phoenixd` never touches the backend and frontend slots or the
two directory fields, in success or failure. -/
theorem start_phoenixd_frame (w : PWorld) (pm : ProcessManager) :
    (start_phoenixd w pm).1.backend = pm.backend ∧
    (start_phoenixd w pm).1.frontend = pm.frontend ∧
    (start_phoenixd w pm).1.resource_dir = pm.resource_dir ∧
    (start_phoenixd w pm).1.data_dir = pm.data_dir := by
  unfold start_phoenixd
  cases hb : w.fs.existsFile (get_phoenixd_binary_path w pm) <;>
    cases hc : w.createDirOk <;>
    cases hs : w.spawnPhoenixd <;>
    simp [hb, hc, hs]

/-- `start_backend` never touches the phoenixd and frontend slots or the
two directory fields, in success or failure. -/
theorem start_backend_frame (w : PWorld) (pm : ProcessManager) :
    (start_backend w pm).1.phoenixd = pm.phoenixd ∧
    (start_backend w pm).1.frontend = pm.frontend ∧
    (start_backend w pm).1.resource_dir = pm.resource_dir ∧
    (start_backend w pm).1.data_dir = pm.data_dir := by
  unfold start_backend
  cases hn : find_node_binary w pm <;>
    cases hb : w.fs.existsFile (backendEntryPath pm.resource_dir) <;>
    cases hs : w.spawnBackend <;>
    simp [hn, hb, hs]

/-- `start_frontend` never touches the phoenixd and backend slots or the
two directory fields, in success or failure. -/
theorem start_frontend_frame (w : PWorld) (pm : ProcessManager) :
    (start_frontend w pm).1.phoenixd = pm.phoenixd ∧
    (start_frontend w pm).1.backend = pm.backend ∧
    (start_frontend w pm).1.resource_dir = pm.resource_dir ∧
    (start_frontend w pm).1.data_dir = pm.data_dir := by
  unfold start_frontend
  cases hn : find_node_binary w pm <;>
    cases hb : w.fs.existsFile (frontendEntryPath pm.resource_dir) <;>
    cases hs : w.spawnFrontend <;>
    simp [hn, hb, hs]

/-- A successful `start_phoenixd` leaves a handle in the phoenixd slot. -/
theorem start_phoenixd_ok_slot (w : PWorld) (pm pm1 : ProcessManager)
    (h : start_phoenixd w pm = (pm1, Except.ok ())) : pm1.phoenixd.isSome = true := by
  unfold start_phoenixd at h
  cases hb : w.fs.existsFile (get_phoenixd_binary_path w pm) <;>
    cases hc : w.createDirOk <;>
    cases hs : w.spawnPhoenixd <;>
    simp [hb, hc, hs] at h
  cases h
  rfl

/-- A successful `start_backend` leaves a handle in the backend slot. -/
theorem start_backend_ok_slot (w : PWorld) (pm pm1 : ProcessManager)
    (h : start_backend w pm = (pm1, Except.ok ())) : pm1.backend.isSome = true := by
  unfold start_backend at h
  cases hn : find_node_binary w pm <;>
    cases hb : w.fs.existsFile (backendEntryPath pm.resource_dir) <;>
    cases hs : w.spawnBackend <;>
    simp [hn, hb, hs] at h
  cases h
  rfl

/-- C9: each start operation of the native supervisor touches only its own
handle slot — a successful `start_phoenixd` leaves the backend and
frontend slots unchanged, a successful `start_backend` leaves the phoenixd
and frontend slots unchanged, a successful `start_frontend` leaves the
phoenixd and backend slots unchanged — and no operation of
`ProcessManager` (the three starts, `start_all`, `stop_all`) ever modifies
the `resource_dir` or `data_dir` fields after construction. -/
theorem process_manager_frame (w : PWorld) (pm : ProcessManager) :
    (∀ pm1, start_phoenixd w pm = (pm1, Except.ok ()) →
      pm1.backend = pm.backend ∧ pm1.frontend = pm.frontend) ∧
    (∀ pm1, start_backend w pm = (pm1, Except.ok ()) →
      pm1.phoenixd = pm.phoenixd ∧ pm1.frontend = pm.frontend) ∧
    (∀ pm1, start_frontend w pm = (pm1, Except.ok ()) →
      pm1.phoenixd = pm.phoenixd ∧ pm1.backend = pm.backend) ∧
    (start_phoenixd w pm).1.resource_dir = pm.resource_dir ∧
    (start_phoenixd w pm).1.data_dir = pm.data_dir ∧
    (start_backend w pm).1.resource_dir = pm.resource_dir ∧
    (start_backend w pm).1.data_dir = pm.data_dir ∧
    (start_frontend w pm).1.resource_dir = pm.resource_dir ∧
    (start_frontend w pm).1.data_dir = pm.data_dir ∧
    (start_all w pm).1.resource_dir = pm.resource_dir ∧
    (start_all w pm).1.data_dir = pm.data_dir ∧
    (stop_all pm).1.resource_dir = pm.resource_dir ∧
    (stop_all pm).1.data_dir = pm.data_dir := by
  have hp := start_phoenixd_frame w pm
  have hb := start_backend_frame w pm
  have hf := start_frontend_frame w pm
  have hall : (start_all w pm).1.resource_dir = pm.resource_dir ∧
      (start_all w pm).1.data_dir = pm.data_dir := by
    rcases h1 : start_phoenixd w pm with ⟨pm1, r1⟩
    rcases h2 : start_backend w pm1 with ⟨pm2, r2⟩
    have e1 : pm1 = (start_phoenixd w pm).1 := by rw [h1]
    have e2 : pm2 = (start_backend w pm1).1 := by rw [h2]
    have hb1 := start_backend_frame w pm1
    have hf2 := start_frontend_frame w pm2
    cases r1 with
    | error e =>
      simp only [start_all, h1]
      exact ⟨by rw [e1, hp.2.2.1], by rw [e1, hp.2.2.2]⟩
    | ok u =>
      cases u
      cases r2 with
      | error e =>
        simp only [start_all, h1, h2]
        exact ⟨by rw [e2, hb1.2.2.1, e1, hp.2.2.1], by rw [e2, hb1.2.2.2, e1, hp.2.2.2]⟩
      | ok u =>
        cases u
        simp only [start_all, h1, h2]
        exact ⟨by rw [hf2.2.2.1, e2, hb1.2.2.1, e1, hp.2.2.1],
          by rw [hf2.2.2.2, e2, hb1.2.2.2, e1, hp.2.2.2]⟩
  refine ⟨?_, ?_, ?_, hp.2.2.1, hp.2.2.2, hb.2.2.1, hb.2.2.2, hf.2.2.1, hf.2.2.2,
    hall.1, hall.2, rfl, rfl⟩
  · intro pm1 h
    have e1 : pm1 = (start_phoenixd w pm).1 := by rw [h]
    exact ⟨e1 ▸ hp.1, e1 ▸ hp.2.1⟩
  · intro pm1 h
    have e1 : pm1 = (start_backend w pm).1 := by rw [h]
    exact ⟨e1 ▸ hb.1, e1 ▸ hb.2.1⟩
  · intro pm1 h
    have e1 : pm1 = (start_frontend w pm).1 := by rw [h]
    exact ⟨e1 ▸ hf.1, e1 ▸ hf.2.1⟩

/-- Witness for C9 at a concrete world where every stage succeeds. -/
theorem process_manager_frame_witness :
    ((start_phoenixd wAllOk pmFresh).1.backend = pmFresh.backend ∧
      (start_phoenixd wAllOk pmFresh).1.frontend = pmFresh.frontend) ∧
    ((start_backend wAllOk pmFresh).1.phoenixd = pmFresh.phoenixd ∧
      (start_backend wAllOk pmFresh).1.frontend = pmFresh.frontend) ∧
    ((start_frontend wAllOk pmFresh).1.phoenixd = pmFresh.phoenixd ∧
      (start_frontend wAllOk pmFresh).1.backend = pmFresh.backend) ∧
    (start_all wAllOk pmFresh).1.resource_dir = pmFresh.resource_dir := by
  have h := process_manager_frame wAllOk pmFresh
  refine ⟨h.1 _ (by rfl), h.2.1 _ (by rfl), h.2.2.1 _ (by rfl), h.2.2.2.2.2.2.2.2.2.1⟩

/-- C3: `start_all` runs the stages in the order phoenixd, backend,
frontend; any stage failure aborts the sequence and returns that stage's
error, while slots filled by earlier successful stages remain filled and
later slots untouched (no rollback); in particular, when `start_backend`
fails after a successful `start_phoenixd`, the phoenixd slot is filled and
the frontend slot is unchanged (so still `none` from a fresh start). -/
theorem start_all_stage_order (w : PWorld) (pm : ProcessManager) :
    (∀ pm1 e, start_phoenixd w pm = (pm1, Except.error e) →
      start_all w pm = (pm1, Except.error e)) ∧
    (∀ pm1 pm2 e, start_phoenixd w pm = (pm1, Except.ok ()) →
      start_backend w pm1 = (pm2, Except.error e) →
      start_all w pm = (pm2, Except.error e) ∧
        pm2.phoenixd.isSome = true ∧ pm2.frontend = pm.frontend) ∧
    (∀ pm1 pm2 pm3 e, start_phoenixd w pm = (pm1, Except.ok ()) →
      start_backend w pm1 = (pm2, Except.ok ()) →
      start_frontend w pm2 = (pm3, Except.error e) →
      start_all w pm = (pm3, Except.error e) ∧
        pm3.phoenixd.isSome = true ∧ pm3.backend.isSome = true) ∧
    (∀ pm1 pm2 pm3, start_phoenixd w pm = (pm1, Except.ok ()) →
      start_backend w pm1 = (pm2, Except.ok ()) →
      start_frontend w pm2 = (pm3, Except.ok ()) →
      start_all w pm = (pm3, Except.ok ())) := by
  refine ⟨?_, ?_, ?_, ?_⟩
  · intro pm1 e h1
    simp only [start_all, h1]
  · intro pm1 pm2 e h1 h2
    have e1 : pm1 = (start_phoenixd w pm).1 := by rw [h1]
    have e2 : pm2 = (start_backend w pm1).1 := by rw [h2]
    have hpf := start_phoenixd_frame w pm
    have hbf := start_backend_frame w pm1
    refine ⟨by simp only [start_all, h1, h2], ?_, ?_⟩
    · have : pm2.phoenixd = pm1.phoenixd := by rw [e2, hbf.1]
      rw [this]
      exact start_phoenixd_ok_slot w pm pm1 h1
    · rw [e2, hbf.2.1, e1, hpf.2.1]
  · intro pm1 pm2 pm3 e h1 h2 h3
    have e1 : pm1 = (start_phoenixd w pm).1 := by rw [h1]
    have e3 : pm3 = (start_frontend w pm2).1 := by rw [h3]
    have hbf := start_backend_frame w pm1
    have hff := start_frontend_frame w pm2
    refine ⟨by simp only [start_all, h1, h2, h3], ?_, ?_⟩
    · have hph : pm3.phoenixd = pm2.phoenixd := by rw [e3, hff.1]
      have hph2 : pm2.phoenixd = pm1.phoenixd := by
        have e2 : pm2 = (start_backend w pm1).1 := by rw [h2]
        rw [e2, hbf.1]
      rw [hph, hph2]
      exact start_phoenixd_ok_slot w pm pm1 h1
    · have hbk : pm3.backend = pm2.backend := by rw [e3, hff.2.1]
      rw [hbk]
      exact start_backend_ok_slot w pm1 pm2 h2
  · intro pm1 pm2 pm3 h1 h2 h3
    simp only [start_all, h1, h2, h3]

/-- Witness for C3 at a concrete world where phoenixd starts and the
backend stage fails because no node runtime can be found. -/
theorem start_all_stage_order_witness :
    start_all wNoNode pmFreshNoNode =
      ({ pmFreshNoNode with phoenixd := some 1 },
        Except.error ("Node.js not found. Please install Node.js or include it in the app bundle.")) ∧
    ({ pmFreshNoNode with phoenixd := some 1 } : ProcessManager).phoenixd.isSome = true ∧
    ({ pmFreshNoNode with phoenixd := some 1 } : ProcessManager).frontend =
      pmFreshNoNode.frontend :=
  (start_all_stage_order wNoNode pmFreshNoNode).2.1 _ _ _ (by rfl) (by rfl)

/-- C4: `stop_all` is idempotent and total: after it returns, all three
handle slots are empty; running it again from the resulting state performs
no termination action and yields the same state; running it on a freshly
constructed supervisor (no services ever started) is a no-op; and it never
produces an error (it is a total function). -/
theorem stop_all_idempotent (pm : ProcessManager) (fs : FS) (rd dd : FsPath) :
    (stop_all pm).1.phoenixd = none ∧
    (stop_all pm).1.backend = none ∧
    (stop_all pm).1.frontend = none ∧
    stop_all (stop_all pm).1 = ((stop_all pm).1, []) ∧
    (stop_all (stop_all pm).1).1 = (stop_all pm).1 ∧
    stop_all (ProcessManager.new fs rd dd) = (ProcessManager.new fs rd dd, []) :=
  ⟨rfl, rfl, rfl, rfl, rfl, rfl⟩

/-- C5: at initialization, when the container engine is available and
`start_containers` succeeds the chosen mode is Docker and no native
supervisor is ever constructed; when the engine is available but
`start_containers` fails, or the engine is unavailable, the native
supervisor is constructed, its `start_all` is attempted (its result state
is stored), and the mode is Local regardless of whether that native start
succeeded — the selection is a total function, so a native error is never
escalated to a failure. -/
theorem setup_mode_selection (dw : DWorld) (w : PWorld) (rd dd : FsPath) :
    (dw.dockerAvailable = true →
      start_containers dw { project_dir := rd } = Except.ok () →
      setupState dw w rd dd = { run_mode := RunMode.docker, process_manager := none }) ∧
    (∀ e, dw.dockerAvailable = true →
      start_containers dw { project_dir := rd } = Except.error e →
      setupState dw w rd dd =
        { run_mode := RunMode.local,
          process_manager := some (start_all w (ProcessManager.new w.fs rd dd)).1 }) ∧
    (dw.dockerAvailable = false →
      setupState dw w rd dd =
        { run_mode := RunMode.local,
          process_manager := some (start_all w (ProcessManager.new w.fs rd dd)).1 }) := by
  refine ⟨?_, ?_, ?_⟩
  · intro ha hs
    simp only [setupState, ha, if_true, hs]
  · intro e ha hs
    simp only [setupState, ha, if_true, hs]
  · intro ha
    simp [setupState, ha]

/-- Witness for C5: engine available but no compose file, so the container
start fails and the selection falls back to Local mode with a constructed
native supervisor. -/
theorem setup_mode_selection_witness :
    setupState dwNoCompose wAllOk rDir dDir =
      { run_mode := RunMode.local,
        process_manager := some (start_all wAllOk (ProcessManager.new wAllOk.fs rDir dDir)).1 } :=
  (setup_mode_selection dwNoCompose wAllOk rDir dDir).2.1
    (composeNotFoundMsg (bundledComposePath { project_dir := rDir })) (by rfl) (by rfl)

/-- C6: when the compose file is absent at both candidate paths,
`stop_containers` succeeds as a no-op while `start_containers` fails with
an error naming the missing compose file. -/
theorem compose_absent_stop_start (w : DWorld) (dm : DockerManager)
    (h1 : w.fs.existsFile (bundledComposePath dm) = false)
    (h2 : w.fs.existsFile (directComposePath dm) = false) :
    stop_containers w dm = Except.ok () ∧
    start_containers w dm = Except.error (composeNotFoundMsg (bundledComposePath dm)) := by
  unfold stop_containers start_containers find_compose_file
  simp [h1, h2]

/-- Witness for C6 over the empty filesystem. -/
theorem compose_absent_stop_start_witness :
    stop_containers dwNoCompose { project_dir := rDir } = Except.ok () ∧
    start_containers dwNoCompose { project_dir := rDir } =
      Except.error (composeNotFoundMsg (bundledComposePath { project_dir := rDir })) :=
  compose_absent_stop_start dwNoCompose { project_dir := rDir } (by rfl) (by rfl)

/-- The push loop of the status query is the in-order `filterMap` of the
line parser over the lines: parse failures are skipped, successes appended. -/
theorem statusFold_eq_filterMap (parse : List Char → Option Json)
    (ls : List (List Char)) (acc : List ContainerStatus) :
    ls.foldl
        (fun acc line =>
          match parse line with
          | some j => acc ++ [mkContainerStatus j]
          | none => acc)
        acc =
      acc ++ ls.filterMap (fun line => (parse line).map mkContainerStatus) := by
  induction ls generalizing acc with
  | nil => simp
  | cons l ls ih =>
    cases h : parse l with
    | none => simp [List.foldl_cons, List.filterMap_cons, h, ih]
    | some j => simp [List.foldl_cons, List.filterMap_cons, h, ih]

/-- C7: the container status query is defensive — an unreachable engine or
a nonzero exit yields the empty list; on success, the result is exactly the
in-order list of records of the lines that parse (each via
`mkContainerStatus`, whose health is `none` when absent), lines that fail
to parse being skipped without aborting the rest; on the concrete two-line
input with a `Health` field only on the first line, it produces two
records, the second with `none` health. -/
theorem get_container_status_defensive :
    (∀ parse, get_container_status parse none = []) ∧
    (∀ parse stdout, get_container_status parse (some (false, stdout)) = []) ∧
    (∀ parse stdout, get_container_status parse (some (true, stdout)) =
      (rustLines stdout).filterMap (fun line => (parse line).map mkContainerStatus)) ∧
    (get_container_status parseJsonLine (some (true, twoLineInput)) =
      [{ name := ("x").toList, status := ("running").toList,
          health := some (("healthy").toList) },
        { name := ("y").toList, status := ("exited").toList, health := none }]) := by
  refine ⟨fun parse => rfl, fun parse stdout => rfl, ?_, by decide⟩
  intro parse stdout
  simpa using statusFold_eq_filterMap parse (rustLines stdout) []

/-- C10: the mode/slot invariant — Local mode keeps a native supervisor,
Docker mode keeps none — holds at the end of initialization, and
`restart_all` and `shutdown_all` change neither the run mode nor whether
the supervisor slot is occupied, so every subsequent operation preserves
the invariant. -/
theorem mode_slot_invariant (dw : DWorld) (w : PWorld) (rd dd : FsPath) (st : AppState) :
    modeSlotInv (setupState dw w rd dd) ∧
    (restart_all w st).run_mode = st.run_mode ∧
    (restart_all w st).process_manager.isSome = st.process_manager.isSome ∧
    (shutdown_all st).run_mode = st.run_mode ∧
    (shutdown_all st).process_manager.isSome = st.process_manager.isSome ∧
    (modeSlotInv st → modeSlotInv (restart_all w st)) ∧
    (modeSlotInv st → modeSlotInv (shutdown_all st)) := by
  have hsetup : modeSlotInv (setupState dw w rd dd) := by
    unfold setupState
    cases ha : dw.dockerAvailable with
    | false => simp [modeSlotInv]
    | true =>
      cases hs : start_containers dw { project_dir := rd } with
      | ok u => simp [modeSlotInv, hs]
      | error e => simp [modeSlotInv, hs]
  rcases st with ⟨mode, pmOpt⟩
  cases mode <;> cases pmOpt <;>
    simp_all [restart_all, shutdown_all, modeSlotInv]

/-- Witness for C10: the invariant is preserved by a restart from a
Local-mode state holding a supervisor. -/
theorem mode_slot_invariant_witness :
    modeSlotInv
      (restart_all wAllOk { run_mode := RunMode.local, process_manager := some pmFresh }) :=
  (mode_slot_invariant dwNoCompose wAllOk rDir dDir
      { run_mode := RunMode.local, process_manager := some pmFresh }).2.2.2.2.2.1
    (by decide)
